import Mathlib

/-!
Shallow embedding of the Codesdailybot Telegram learning bot (src/bot.py):
the JSON user store (UserDatabase), the submission lifecycle
(handle_submission), the registration conversation, the daily-question
scheduler configuration and the leaderboard, with theorems checking the
specification's claims against these definitions.
-/

namespace Codesdailybot

/-- JSON-like values as stored in db.json. -/
inductive Val where
  | str (s : String)
  | num (n : Int)
  | null
  | list (l : List Val)
  | dict (d : List (String × Val))

/-- A Python dict with string keys, as an ordered association list
(Python dicts preserve insertion order). -/
abbrev Rec := List (String × Val)

/-- The whole user store persisted in db.json: user id to user record. -/
abbrev Store := List (String × Rec)

/-- Python dict lookup `d.get(key)`: the value bound to `key`, if any. -/
def alookup {α : Type} : List (String × α) → String → Option α
  | [], _ => none
  | (k, v) :: rest, key => if k = key then some v else alookup rest key

/-- Python dict assignment `d[key] = v`: overwrite the binding in place,
or append a fresh binding at the end. -/
def setKey {α : Type} : List (String × α) → String → α → List (String × α)
  | [], k, v => [(k, v)]
  | (k1, v1) :: rest, k, v =>
    if k1 = k then (k, v) :: rest else (k1, v1) :: setKey rest k v

/-- The keys of a dict, in order. -/
def keys {α : Type} : List (String × α) → List String
  | [] => []
  | (k, _) :: rest => k :: keys rest

/-- Python `old.update(data)`: apply every binding of `data`, in order. -/
def dictUpdate {α : Type} (old data : List (String × α)) : List (String × α) :=
  data.foldl (fun acc p => setKey acc p.1 p.2) old

/-- The value of the last binding of `key`, if any.  When a sequence of
bindings is applied to a dict, the last binding for a key wins. -/
def lookupLast {α : Type} : List (String × α) → String → Option α
  | [], _ => none
  | (k, v) :: rest, key =>
    match lookupLast rest key with
    | some v1 => some v1
    | none => if k = key then some v else none

/-- UserDatabase.update_user (src/bot.py lines 176-181): load the whole
store, merge `data` into the user's record (creating it when absent) and
save the whole store back.  The returned `Store` is exactly what `save`
writes to db.json. -/
def update_user (users : Store) (user_id : String) (data : Rec) : Store :=
  setKey users user_id (dictUpdate ((alookup users user_id).getD []) data)

/-- Reading a numeric field with a default, as `user_data.get(key, d)`
followed by integer arithmetic: `some` of the stored number, `some d` when
the key is absent, and `none` when the stored value is not a number (the
Python arithmetic would raise there). -/
def getNum (r0 : Rec) (k : String) (d : Int) : Option Int :=
  match alookup r0 k with
  | none => some d
  | some (Val.num n) => some n
  | some _ => none

/-- Reading a list field with default `[]`, as
`user_data.get(key, [])` followed by `.append`: `none` when the stored
value is not a list (the Python `.append` would raise there). -/
def getList (r0 : Rec) (k : String) : Option (List Val) :=
  match alookup r0 k with
  | none => some []
  | some (Val.list l) => some l
  | some _ => none

/-- Reading a string field, as an f-string interpolation of a value set
earlier in the conversation. -/
def getStr (r0 : Rec) (k : String) : Option String :=
  match alookup r0 k with
  | some (Val.str s) => some s
  | _ => none

/-- The shape of a successfully parsed LLM evaluation reply
(handle_submission, src/bot.py lines 361-397). -/
structure EvalData where
  score : Int
  feedback : String
  improvements : String
  tip : String
  corrected_code : String
deriving DecidableEq

/-- The shape of a successfully parsed LLM question reply
(get_time and check_and_send_questions). `example_io` renders the
source's `example` field, whose name is reserved in Lean. -/
structure QuestionData where
  question : String
  example_io : String
  hint : String
  test_cases : List String
  template : String
deriving DecidableEq

/-- The messages the bot can send to a chat, abstracted from their
formatted text. -/
inductive Msg where
  | askAge
  | askGrade
  | askDifficulty
  | askTime
  | questionGenFailed
  | firstQuestion (name grade difficulty preferred_time : String) (q : QuestionData)
  | dailyQuestion (q : QuestionData)
  | uploadPrompt
  | wrongFileType
  | streakMilestone (streak : Int)
  | feedback (e : EvalData)
  | fallbackEvaluation
deriving DecidableEq

/-- The mime types handle_submission accepts (src/bot.py line 335). -/
def MIME_ALLOWED : List String := ["text/plain", "text/x-python"]

/-- Python `s.replace(pat, rep)` on character lists: replace every
non-overlapping occurrence of `pat`, scanning left to right.  The
`pat.isEmpty` guard only rules out the empty pattern (never used here). -/
def replaceAll (pat rep : List Char) : List Char → List Char
  | [] => []
  | c :: rest =>
    if pat.isPrefixOf (c :: rest) && !pat.isEmpty then
      rep ++ replaceAll pat rep (rest.drop (pat.length - 1))
    else
      c :: replaceAll pat rep rest
termination_by l => l.length
decreasing_by
  · simp only [List.length_drop, List.length_cons]
    omega
  · simp only [List.length_cons]
    omega

/-- Python `s.replace(pat, rep)` on strings. -/
def pyReplace (s pat rep : String) : String :=
  (replaceAll pat.toList rep.toList s.toList).asString

/-- Cleaning of the raw LLM evaluation before json.loads
(src/bot.py line 360): strip markdown code fences. -/
def cleanEvaluation (evaluation : String) : String :=
  pyReplace (pyReplace evaluation "```json\n" "") "```" ""

/-- The submissions_history entry appended on a successful evaluation
(src/bot.py lines 367-371). -/
def submissionEntry (now : String) (e : EvalData) : Val :=
  Val.dict [("date", Val.str now), ("score", Val.num e.score),
            ("feedback", Val.str e.feedback)]

/-- PythonLearningBot.check_submissions (src/bot.py lines 464-467): an
explicit placeholder that only prints; it inspects nothing and changes
nothing. -/
def check_submissions (store : Store) : Store × List Msg := (store, [])

/-- PythonLearningBot.handle_submission (src/bot.py lines 324-417).
`parse` stands for `json.loads` on the cleaned reply, returning `none` on
a JSONDecodeError; `now` stands for `datetime.now().isoformat()`.  The
result is `none` when the handler would raise an uncaught exception
(ill-typed stored fields), otherwise the store as persisted plus the
replies sent to the user, in order. -/
def handle_submission (parse : String → Option EvalData) (store : Store)
    (user_id : String) (hasDocument : Bool) (mimeType : String)
    (evaluation : String) (now : String) : Option (Store × List Msg) :=
  let user_data := (alookup store user_id).getD []
  if !hasDocument then some (store, [Msg.uploadPrompt])
  else if !(MIME_ALLOWED.contains mimeType) then some (store, [Msg.wrongFileType])
  else
    match parse (cleanEvaluation evaluation) with
    | none => some (store, [Msg.fallbackEvaluation])
    | some e =>
      (getNum user_data "streak" 0).bind fun streak =>
      (getNum user_data "total_score" 0).bind fun total =>
      (getList user_data "submissions_history").bind fun hist =>
        let ud1 := setKey user_data "streak" (Val.num (streak + 1))
        let ud2 := setKey ud1 "total_score" (Val.num (total + e.score))
        let ud3 := setKey ud2 "submissions_history"
          (Val.list (hist ++ [submissionEntry now e]))
        let store1 := update_user store user_id ud3
        some (store1,
          (if (streak + 1) % 5 == 0 then [Msg.streakMilestone (streak + 1)] else [])
            ++ [Msg.feedback e])

/-- The registration conversation states NAME..CHAT (src/bot.py line 32)
plus ConversationHandler.END. -/
inductive ConvState where
  | NAME
  | AGE
  | GRADE
  | DIFFICULTY
  | TIME
  | CHAT
  | END
deriving DecidableEq

/-- An incoming conversation update: a text message or an inline-keyboard
callback. -/
inductive ConvInput where
  | text (s : String)
  | callback (s : String)
deriving DecidableEq

/-- The difficulty levels offered at registration (src/bot.py line 33). -/
def DIFFICULTY_LEVELS : List String := ["Beginner", "Intermediate", "Advanced"]

/-- The user record created by get_time on registration completion
(src/bot.py lines 228-238), in the source's field order. -/
def registration_record (name age grade difficulty preferred_time : String) : Rec :=
  [("name", Val.str name), ("age", Val.str age), ("grade", Val.str grade),
   ("difficulty", Val.str difficulty), ("preferred_time", Val.str preferred_time),
   ("streak", Val.num 0), ("total_score", Val.num 0),
   ("last_submission", Val.null), ("submissions_history", Val.list [])]

/-- PythonLearningBot.get_time (src/bot.py lines 223-285): build and save
the registration record, then generate the first question; `q` stands for
the parsed LLM question reply (`none` on a JSONDecodeError).  The record
is saved before question generation in both branches. -/
def get_time (user_id : String) (ctx : Rec) (store : Store) (text : String)
    (q : Option QuestionData) : Option (ConvState × Rec × Store × List Msg) :=
  match getStr ctx "name", getStr ctx "age", getStr ctx "grade",
      getStr ctx "difficulty" with
  | some n, some a, some g, some d =>
    let user_data := registration_record n a g d text
    let store1 := update_user store user_id user_data
    match q with
    | none => some (ConvState.END, ctx, store1, [Msg.questionGenFailed])
    | some qd => some (ConvState.END, setKey ctx "hint" (Val.str qd.hint), store1,
        [Msg.firstQuestion n g d text qd])
  | _, _, _, _ => none

/-- One step of the registration conversation, dispatching inputs to the
handlers registered in run() (src/bot.py lines 604-614): text handlers in
states NAME, AGE, GRADE, TIME, and a callback handler in DIFFICULTY whose
pattern only matches the three difficulty levels.  `none` means no handler
fires (or the handler raises). -/
def regStep (user_id : String) (q : Option QuestionData) :
    ConvState × Rec × Store → ConvInput →
    Option (ConvState × Rec × Store × List Msg)
  | (ConvState.NAME, ctx, store), ConvInput.text s =>
      some (ConvState.AGE, setKey ctx "name" (Val.str s), store, [Msg.askAge])
  | (ConvState.AGE, ctx, store), ConvInput.text s =>
      some (ConvState.GRADE, setKey ctx "age" (Val.str s), store, [Msg.askGrade])
  | (ConvState.GRADE, ctx, store), ConvInput.text s =>
      some (ConvState.DIFFICULTY, setKey ctx "grade" (Val.str s), store,
        [Msg.askDifficulty])
  | (ConvState.DIFFICULTY, ctx, store), ConvInput.callback s =>
      if DIFFICULTY_LEVELS.contains s then
        some (ConvState.TIME, setKey ctx "difficulty" (Val.str s), store,
          [Msg.askTime])
      else none
  | (ConvState.TIME, ctx, store), ConvInput.text s => get_time user_id ctx store s q
  | _, _ => none

/-- Run the registration conversation over a list of inputs, collecting
the sent messages. -/
def regRun (user_id : String) (q : Option QuestionData) :
    ConvState × Rec × Store → List ConvInput →
    Option (ConvState × Rec × Store × List Msg)
  | s, [] => some (s.1, s.2.1, s.2.2, [])
  | s, i :: rest =>
    match regStep user_id q s i with
    | none => none
    | some (st, ctx, store, ms) =>
      match regRun user_id q (st, ctx, store) rest with
      | none => none
      | some (st1, ctx1, store1, ms1) => some (st1, ctx1, store1, ms ++ ms1)

/-- The Python comparison `user_data.get('preferred_time') == current_time`
(src/bot.py line 535): true exactly when the stored value is the string
`t` (string equality, no parsing, no tolerance; a missing or non-string
value never equals a string). -/
def timeMatches (r0 : Rec) (t : String) : Bool :=
  match alookup r0 "preferred_time" with
  | some (Val.str s) => s == t
  | _ => false

/-- PythonLearningBot.check_and_send_questions (src/bot.py lines 526-569):
scan all users in store order; for each user whose preferred_time equals
the current IST wall-clock string `current_time`, generate and parse a
question and send it.  `gen` stands for LLM generation plus json.loads
(`none` on failure); any exception inside the per-user try block (missing
grade or difficulty key, generation or parse failure) is caught and the
scan continues.  Returns the (user,message) sends, in order. -/
def check_and_send_questions
    (gen : String → String → String → Option QuestionData)
    (store : Store) (current_time : String) : List (String × Msg) :=
  store.foldr
    (fun p acc =>
      if timeMatches p.2 current_time then
        match getStr p.2 "grade", getStr p.2 "difficulty" with
        | some g, some d =>
          match gen p.1 g d with
          | some q => (p.1, Msg.dailyQuestion q) :: acc
          | none => acc
        | _, _ => acc
      else acc)
    []

/-- The two jobs the bot schedules. -/
inductive Task where
  | checkAndSendQuestions
  | sendWeeklyChallenge
deriving DecidableEq

/-- A schedule-library job trigger. -/
inductive Sched where
  | everyMinutes (n : Nat)
  | weeklyAt (day : String) (hhmm : String)
deriving DecidableEq

/-- PythonLearningBot.schedule_daily_tasks (src/bot.py lines 571-579):
the daily-question check every 1 minute and the weekly challenge every
Sunday at 09:00. -/
def schedule_daily_tasks : List (Sched × Task) :=
  [(Sched.everyMinutes 1, Task.checkAndSendQuestions),
   (Sched.weeklyAt "sunday" "09:00", Task.sendWeeklyChallenge)]

/-- The sleep between run_pending calls in the scheduler side thread
(src/bot.py line 639). -/
def scheduler_sleep_seconds : Nat := 30

/-- Whether a message delivers a coding question to the user. -/
def isQuestionMsg : Msg → Bool
  | Msg.firstQuestion _ _ _ _ _ => true
  | Msg.dailyQuestion _ => true
  | _ => false

/-- The leaderboard sort key of a user record (src/bot.py line 187):
`(x[1].get('streak', 0), x[1].get('total_score', 0))`, a missing field
read as 0.  Numeric stored values are read as integers. -/
def lbKey (r0 : Rec) : Int × Int :=
  ((getNum r0 "streak" 0).getD 0, (getNum r0 "total_score" 0).getD 0)

/-- Lexicographic order on Python pairs, as tuple comparison. -/
def keyLe (p q : Int × Int) : Prop :=
  p.1 < q.1 ∨ (p.1 = q.1 ∧ p.2 ≤ q.2)

instance (p q : Int × Int) : Decidable (keyLe p q) := by
  unfold keyLe
  exact inferInstance

/-- Descending order on leaderboard entries: a stable sort with this
relation is Python `sorted(..., key, reverse=True)`. -/
def lbRel (a b : String × Rec) : Prop := keyLe (lbKey b.2) (lbKey a.2)

instance : DecidableRel lbRel := fun a b => by
  unfold lbRel
  exact inferInstance

instance : IsTotal (String × Rec) lbRel := by
  constructor
  intro a b
  unfold lbRel keyLe
  omega

instance : IsTrans (String × Rec) lbRel := by
  constructor
  intro a b c
  unfold lbRel keyLe
  omega

/-- UserDatabase.get_leaderboard (src/bot.py lines 183-189): the users
sorted by descending (streak, total_score) with Python's stable sort,
truncated to the first 10. -/
def get_leaderboard (users : Store) : List (String × Rec) :=
  (List.insertionSort lbRel users).take 10

/-- UserDatabase.load (src/bot.py lines 161-170): read the file, strip
whitespace, return the empty dict for empty content, parse JSON and
return the empty dict on a JSONDecodeError.  `parse` stands for
json.loads restricted to user stores (`none` on a decode error). -/
def load (parse : String → Option Store) (raw : String) : Store :=
  let content := raw.trim
  if content = "" then [] else (parse content).getD []

/-- A sample parsed evaluation used in concrete checks. -/
def demoEval : EvalData :=
  { score := 7, feedback := "Clean solution", improvements := "Edge cases",
    tip := "Validate input", corrected_code := "pass" }

/-- A sample parsed question used in concrete checks. -/
def demoQuestion : QuestionData :=
  { question := "Reverse a string", example_io := "abc gives cba",
    hint := "Use slicing", test_cases := ["abc", "xy"],
    template := "def solve(s):" }

/-- A registered sample user. -/
def demoUser : Rec := registration_record "Asha" "15" "10th" "Beginner" "08:00"

/-- A sample store with one registered user. -/
def demoStore : Store := [("u1", demoUser)]

/-- A sample store for the daily-question check: two fully registered
users, only the first preferring 09:00. -/
def demoStore2 : Store :=
  [("u1", registration_record "Asha" "15" "10th" "Beginner" "09:00"),
   ("u2", registration_record "Ben" "16" "11th" "Advanced" "10:00")]

/-- A sample merge payload for update_user checks. -/
def demoPatch : Rec := [("difficulty", Val.str "Advanced"), ("city", Val.str "Pune")]

theorem alookup_setKey {α : Type} (l : List (String × α)) (k : String) (v : α)
    (key : String) :
    alookup (setKey l k v) key = if k = key then some v else alookup l key := by
  induction l with
  | nil => simp [setKey, alookup]
  | cons hd tl ih =>
    obtain ⟨k1, v1⟩ := hd
    by_cases h1 : k1 = k
    · subst h1
      by_cases h2 : k1 = key <;> simp [setKey, alookup, h2]
    · simp only [setKey, h1, if_false, alookup]
      by_cases h2 : k1 = key
      · subst h2
        have h3 : ¬ k = k1 := fun h => h1 h.symm
        simp [h3]
      · simp [h2, ih]

theorem mem_keys_setKey {α : Type} (l : List (String × α)) (k : String) (v : α)
    (key : String) :
    key ∈ keys (setKey l k v) ↔ key ∈ keys l ∨ key = k := by
  induction l with
  | nil => simp [setKey, keys]
  | cons hd tl ih =>
    obtain ⟨k1, v1⟩ := hd
    by_cases h1 : k1 = k <;> simp [setKey, h1, keys, ih] <;> tauto

theorem nodup_keys_setKey {α : Type} (l : List (String × α)) (k : String) (v : α)
    (h : (keys l).Nodup) : (keys (setKey l k v)).Nodup := by
  induction l with
  | nil => simp [setKey, keys]
  | cons hd tl ih =>
    obtain ⟨k1, v1⟩ := hd
    simp only [keys, List.nodup_cons] at h
    obtain ⟨hnm, hnd⟩ := h
    by_cases h1 : k1 = k
    · subst h1
      simp [setKey, keys, List.nodup_cons]
      exact ⟨hnm, hnd⟩
    · simp only [setKey, h1, if_false, keys, List.nodup_cons]
      refine ⟨?_, ih hnd⟩
      intro hmem
      rcases (mem_keys_setKey tl k v k1).mp hmem with h2 | h2
      · exact hnm h2
      · exact h1 h2

theorem lookupLast_eq_none {α : Type} (l : List (String × α)) (key : String)
    (h : key ∉ keys l) : lookupLast l key = none := by
  induction l with
  | nil => rfl
  | cons hd tl ih =>
    obtain ⟨k1, v1⟩ := hd
    simp only [keys, List.mem_cons] at h
    push_neg at h
    obtain ⟨h1, h2⟩ := h
    have h3 : ¬ k1 = key := fun he => h1 he.symm
    simp [lookupLast, ih h2, h3]

theorem lookupLast_eq_alookup {α : Type} (l : List (String × α))
    (h : (keys l).Nodup) (key : String) : lookupLast l key = alookup l key := by
  induction l with
  | nil => rfl
  | cons hd tl ih =>
    obtain ⟨k1, v1⟩ := hd
    simp only [keys, List.nodup_cons] at h
    obtain ⟨hnm, hnd⟩ := h
    by_cases h1 : k1 = key
    · subst h1
      have h2 : lookupLast tl k1 = none := lookupLast_eq_none tl k1 hnm
      simp [lookupLast, h2, alookup]
    · simp only [lookupLast, ih hnd, alookup, h1, if_false]
      cases hc : alookup tl key <;> simp [hc, h1]

theorem alookup_dictUpdate {α : Type} (data : List (String × α)) :
    ∀ (old : List (String × α)) (key : String),
    alookup (dictUpdate old data) key =
      match lookupLast data key with
      | some v => some v
      | none => alookup old key := by
  induction data with
  | nil => intro old key; rfl
  | cons hd tl ih =>
    intro old key
    obtain ⟨k1, v1⟩ := hd
    have hstep : dictUpdate old ((k1, v1) :: tl) =
        dictUpdate (setKey old k1 v1) tl := rfl
    rw [hstep, ih]
    cases hc : lookupLast tl key with
    | some v => simp [lookupLast, hc]
    | none =>
      simp only [lookupLast, hc, alookup_setKey]
      by_cases h1 : k1 = key <;> simp [h1]

theorem alookup_dictUpdate_nodup {α : Type} (data old : List (String × α))
    (h : (keys data).Nodup) (key : String) :
    alookup (dictUpdate old data) key =
      match alookup data key with
      | some v => some v
      | none => alookup old key := by
  rw [alookup_dictUpdate, lookupLast_eq_alookup data h key]

theorem nodup_keys_dictUpdate {α : Type} (data : List (String × α)) :
    ∀ (old : List (String × α)), (keys old).Nodup →
    (keys (dictUpdate old data)).Nodup := by
  induction data with
  | nil => intro old h; exact h
  | cons hd tl ih =>
    intro old h
    exact ih _ (nodup_keys_setKey old hd.1 hd.2 h)

/-- Characterisation of handle_submission on the success path: when a
document of an allowed mime type arrives, the evaluation parses, and the
stored streak, total_score and submissions_history fields are well typed,
the persisted record updates exactly those three fields and stays
well formed. -/
theorem submission_success_step
    (parse : String → Option EvalData) (store : Store)
    (user_id mimeType evaluation now : String) (e : EvalData)
    (s t : Int) (hist : List Val)
    (hwf : (keys ((alookup store user_id).getD [])).Nodup)
    (hm : MIME_ALLOWED.contains mimeType = true)
    (hp : parse (cleanEvaluation evaluation) = some e)
    (hs : getNum ((alookup store user_id).getD []) "streak" 0 = some s)
    (ht : getNum ((alookup store user_id).getD []) "total_score" 0 = some t)
    (hh : getList ((alookup store user_id).getD []) "submissions_history" = some hist) :
    ∃ store1,
      handle_submission parse store user_id true mimeType evaluation now =
        some (store1,
          (if (s + 1) % 5 == 0 then [Msg.streakMilestone (s + 1)] else [])
            ++ [Msg.feedback e]) ∧
      (keys ((alookup store1 user_id).getD [])).Nodup ∧
      getNum ((alookup store1 user_id).getD []) "streak" 0 = some (s + 1) ∧
      getNum ((alookup store1 user_id).getD []) "total_score" 0 = some (t + e.score) ∧
      getList ((alookup store1 user_id).getD []) "submissions_history" =
        some (hist ++ [submissionEntry now e]) := by
  have hud3nd : (keys (setKey (setKey (setKey ((alookup store user_id).getD [])
      "streak" (Val.num (s + 1))) "total_score" (Val.num (t + e.score)))
      "submissions_history" (Val.list (hist ++ [submissionEntry now e])))).Nodup :=
    nodup_keys_setKey _ _ _ (nodup_keys_setKey _ _ _ (nodup_keys_setKey _ _ _ hwf))
  refine ⟨update_user store user_id (setKey (setKey (setKey
      ((alookup store user_id).getD []) "streak" (Val.num (s + 1)))
      "total_score" (Val.num (t + e.score))) "submissions_history"
      (Val.list (hist ++ [submissionEntry now e]))), ?_, ?_, ?_, ?_, ?_⟩
  · have hmem : mimeType ∈ MIME_ALLOWED := by simpa using hm
    simp [handle_submission, hmem, hp, hs, ht, hh]
  all_goals {
    rw [update_user, alookup_setKey, if_pos rfl, Option.getD_some]
    first
    | exact nodup_keys_dictUpdate _ _ hwf
    | { have hfld := alookup_dictUpdate_nodup (setKey (setKey (setKey
          ((alookup store user_id).getD []) "streak" (Val.num (s + 1)))
          "total_score" (Val.num (t + e.score))) "submissions_history"
          (Val.list (hist ++ [submissionEntry now e])))
          ((alookup store user_id).getD []) hud3nd
        simp [getNum, getList, hfld, alookup_setKey] }
  }

/-- Claim C4: update_user rewrites the whole store: the returned store is
what save persists, user_id's record equals its previous record merged
with data (new keys added, listed keys overwritten), every other user's
record is unchanged, and every field of user_id's record not listed in
data is unchanged.  `data` is a Python dict, so its keys are distinct. -/
theorem update_user_merge_frame (users : Store) (user_id : String) (data : Rec)
    (hnd : (keys data).Nodup) :
    (∀ uid, uid ≠ user_id →
      alookup (update_user users user_id data) uid = alookup users uid) ∧
    ∃ merged, alookup (update_user users user_id data) user_id = some merged ∧
      (∀ k v, alookup data k = some v → alookup merged k = some v) ∧
      (∀ k, alookup data k = none →
        alookup merged k = alookup ((alookup users user_id).getD []) k) := by
  constructor
  · intro uid hne
    rw [update_user, alookup_setKey, if_neg (fun h => hne h.symm)]
  · refine ⟨dictUpdate ((alookup users user_id).getD []) data, ?_, ?_, ?_⟩
    · rw [update_user, alookup_setKey, if_pos rfl]
    · intro k v hk
      rw [alookup_dictUpdate_nodup data _ hnd k, hk]
    · intro k hk
      rw [alookup_dictUpdate_nodup data _ hnd k, hk]

theorem update_user_merge_frame_witness :
    alookup (update_user demoStore "u1" demoPatch) "u9" = alookup demoStore "u9" :=
  (update_user_merge_frame demoStore "u1" demoPatch (by decide)).1 "u9" (by decide)

/-- Claim C9: load never raises on a present but empty or syntactically
invalid store file: whitespace-only content and a parse failure both
yield the empty dict, so readers see no registered users. -/
theorem load_corrupted_returns_empty (parse : String → Option Store)
    (raw : String) (h : raw.trim = "" ∨ parse raw.trim = none) :
    load parse raw = [] := by
  rcases h with h | h
  · simp [load, h]
  · by_cases he : raw.trim = "" <;> simp [load, he, h]

theorem load_corrupted_returns_empty_witness :
    load (fun _ => none) "this is not json" = [] :=
  load_corrupted_returns_empty (fun _ => none) "this is not json" (Or.inr rfl)

/-- Claim C2: for every submission whose evaluation parses, the stored
streak increases by exactly 1, total_score by exactly the evaluation's
score, and a record with the date, score and feedback is appended to
submissions_history, all persisted through update_user. -/
theorem handle_submission_tracks_stats
    (parse : String → Option EvalData) (store : Store)
    (user_id mimeType evaluation now : String) (e : EvalData)
    (s t : Int) (hist : List Val)
    (hwf : (keys ((alookup store user_id).getD [])).Nodup)
    (hm : MIME_ALLOWED.contains mimeType = true)
    (hp : parse (cleanEvaluation evaluation) = some e)
    (hs : getNum ((alookup store user_id).getD []) "streak" 0 = some s)
    (ht : getNum ((alookup store user_id).getD []) "total_score" 0 = some t)
    (hh : getList ((alookup store user_id).getD []) "submissions_history" = some hist) :
    ∃ store1 msgs,
      handle_submission parse store user_id true mimeType evaluation now =
        some (store1, msgs) ∧
      getNum ((alookup store1 user_id).getD []) "streak" 0 = some (s + 1) ∧
      getNum ((alookup store1 user_id).getD []) "total_score" 0 =
        some (t + e.score) ∧
      getList ((alookup store1 user_id).getD []) "submissions_history" =
        some (hist ++ [submissionEntry now e]) := by
  obtain ⟨store1, h1, _, h3, h4, h5⟩ := submission_success_step parse store
    user_id mimeType evaluation now e s t hist hwf hm hp hs ht hh
  exact ⟨store1, _, h1, h3, h4, h5⟩

theorem handle_submission_tracks_stats_witness :
    ∃ store1 msgs,
      handle_submission (fun _ => some demoEval) demoStore "u1" true
        "text/plain" "reply" "2025-01-02T10:00:00" = some (store1, msgs) ∧
      getNum ((alookup store1 "u1").getD []) "streak" 0 = some (0 + 1) ∧
      getNum ((alookup store1 "u1").getD []) "total_score" 0 =
        some (0 + demoEval.score) ∧
      getList ((alookup store1 "u1").getD []) "submissions_history" =
        some ([] ++ [submissionEntry "2025-01-02T10:00:00" demoEval]) :=
  handle_submission_tracks_stats (fun _ => some demoEval) demoStore "u1"
    "text/plain" "reply" "2025-01-02T10:00:00" demoEval 0 0 []
    (by decide) rfl rfl rfl rfl rfl

/-- Claim C5: the evaluation reply is parsed as JSON only after the
markdown code fences are stripped (cleanEvaluation inside
handle_submission); when parsing fails the user receives the fallback
message and the persisted store is exactly the old store: streak,
total_score and submissions_history are untouched. -/
theorem evaluation_parse_error_no_update
    (parse : String → Option EvalData) (store : Store)
    (user_id mimeType evaluation now : String)
    (hm : MIME_ALLOWED.contains mimeType = true)
    (hp : parse (cleanEvaluation evaluation) = none) :
    handle_submission parse store user_id true mimeType evaluation now =
      some (store, [Msg.fallbackEvaluation]) := by
  have hmem : mimeType ∈ MIME_ALLOWED := by simpa using hm
  simp [handle_submission, hmem, hp]

theorem evaluation_parse_error_no_update_witness :
    handle_submission (fun _ => none) demoStore "u1" true "text/x-python"
      "not json" "2025-01-02T10:00:00" =
      some (demoStore, [Msg.fallbackEvaluation]) :=
  evaluation_parse_error_no_update (fun _ => none) demoStore "u1"
    "text/x-python" "not json" "2025-01-02T10:00:00" rfl rfl

/-- Claim C10: streak accounting checks no dates: two submissions with
successfully parsed evaluations, at arbitrary timestamps now1 and now2
(in particular the same calendar day, or days apart), take the stored
streak from s to s+1 and then to s+2 — never a reset to 0 and no
once-a-day cap. -/
theorem streak_no_date_check
    (parse1 parse2 : String → Option EvalData) (store : Store)
    (user_id mimeType ev1 ev2 now1 now2 : String) (e1 e2 : EvalData)
    (s t : Int) (hist : List Val)
    (hwf : (keys ((alookup store user_id).getD [])).Nodup)
    (hm : MIME_ALLOWED.contains mimeType = true)
    (hp1 : parse1 (cleanEvaluation ev1) = some e1)
    (hp2 : parse2 (cleanEvaluation ev2) = some e2)
    (hs : getNum ((alookup store user_id).getD []) "streak" 0 = some s)
    (ht : getNum ((alookup store user_id).getD []) "total_score" 0 = some t)
    (hh : getList ((alookup store user_id).getD []) "submissions_history" = some hist) :
    ∃ store1 msgs1 store2 msgs2,
      handle_submission parse1 store user_id true mimeType ev1 now1 =
        some (store1, msgs1) ∧
      getNum ((alookup store1 user_id).getD []) "streak" 0 = some (s + 1) ∧
      handle_submission parse2 store1 user_id true mimeType ev2 now2 =
        some (store2, msgs2) ∧
      getNum ((alookup store2 user_id).getD []) "streak" 0 = some (s + 2) := by
  obtain ⟨store1, h1, hwf1, hs1, ht1, hh1⟩ := submission_success_step parse1 store
    user_id mimeType ev1 now1 e1 s t hist hwf hm hp1 hs ht hh
  obtain ⟨store2, h2, _, hs2, _, _⟩ := submission_success_step parse2 store1
    user_id mimeType ev2 now2 e2 (s + 1) (t + e1.score)
    (hist ++ [submissionEntry now1 e1]) hwf1 hm hp2 hs1 ht1 hh1
  refine ⟨store1, _, store2, _, h1, hs1, h2, ?_⟩
  rw [show s + 2 = s + 1 + 1 by ring]
  exact hs2

theorem streak_no_date_check_witness :
    ∃ store1 msgs1 store2 msgs2,
      handle_submission (fun _ => some demoEval) demoStore "u1" true
        "text/plain" "first reply" "2025-01-02T09:00:00" = some (store1, msgs1) ∧
      getNum ((alookup store1 "u1").getD []) "streak" 0 = some (0 + 1) ∧
      handle_submission (fun _ => some demoEval) store1 "u1" true
        "text/plain" "second reply" "2025-01-02T21:00:00" = some (store2, msgs2) ∧
      getNum ((alookup store2 "u1").getD []) "streak" 0 = some (0 + 2) :=
  streak_no_date_check (fun _ => some demoEval) (fun _ => some demoEval)
    demoStore "u1" "text/plain" "first reply" "second reply"
    "2025-01-02T09:00:00" "2025-01-02T21:00:00" demoEval demoEval 0 0 []
    (by decide) rfl rfl rfl rfl rfl rfl

/-- Claim C1, code evaluated at the failing input: the daily question
promises a 9-hour window (message text, src/bot.py line 563) but no code
path enforces it — check_submissions is a placeholder that changes
nothing, and handle_submission never reads a clock.  Here a user whose
question arrives at their 08:00 preferred time submits at 23:30, far past
the 9-hour deadline, and the submission is still accepted: streak goes to
1 and total_score to 7, refuting the claimed deadline enforcement. -/
theorem late_submission_still_accepted :
    ((handle_submission (fun _ => some demoEval) demoStore "u1" true
        "text/plain" "late reply" "2025-01-02T23:30:00").map
      (fun r => (getNum ((alookup r.1 "u1").getD []) "streak" 0,
                 getNum ((alookup r.1 "u1").getD []) "total_score" 0, r.2))) =
      some (some 1, some 7, [Msg.feedback demoEval]) ∧
    check_submissions demoStore = (demoStore, []) := by
  exact ⟨rfl, rfl⟩

/-- Claim C8: get_leaderboard returns at most 10 entries, sorted in
descending lexicographic (streak, total_score) order, every entry drawn
from the store, and a record missing both fields has sort key (0, 0). -/
theorem get_leaderboard_spec (users : Store) :
    (get_leaderboard users).length ≤ 10 ∧
    List.Sorted lbRel (get_leaderboard users) ∧
    (∀ p, p ∈ get_leaderboard users → p ∈ users) ∧
    (∀ r0 : Rec, alookup r0 "streak" = none → alookup r0 "total_score" = none →
      lbKey r0 = (0, 0)) := by
  refine ⟨?_, ?_, ?_, ?_⟩
  · simp only [get_leaderboard, List.length_take]
    omega
  · exact (List.sorted_insertionSort lbRel users).sublist (List.take_sublist _ _)
  · intro p hp
    have h1 : p ∈ List.insertionSort lbRel users :=
      (List.take_sublist _ _).subset hp
    exact (List.perm_insertionSort lbRel users).mem_iff.mp h1
  · intro r0 h1 h2
    simp [lbKey, getNum, h1, h2]

theorem get_leaderboard_spec_witness : lbKey [] = (0, 0) :=
  (get_leaderboard_spec demoStore).2.2.2 [] rfl rfl

/-- Claim C3: on a scheduler tick, check_and_send_questions scans the
whole store and, provided question generation succeeds for the matching
users, sends a daily question to exactly those users whose stored
preferred_time string equals the current Asia/Kolkata wall-clock string
(plain string equality via timeMatches — no parsing, no tolerance). -/
theorem check_and_send_questions_exact_recipients
    (gen : String → String → String → Option QuestionData)
    (store : Store) (t : String)
    (hok : ∀ uid ud, (uid, ud) ∈ store → timeMatches ud t = true →
      ∃ g d q, getStr ud "grade" = some g ∧ getStr ud "difficulty" = some d ∧
        gen uid g d = some q) :
    (check_and_send_questions gen store t).map Prod.fst =
      (store.filter (fun p => timeMatches p.2 t)).map Prod.fst := by
  induction store with
  | nil => rfl
  | cons p rest ih =>
    obtain ⟨uid, ud⟩ := p
    have hok1 : ∀ uid1 ud1, (uid1, ud1) ∈ rest → timeMatches ud1 t = true →
        ∃ g d q, getStr ud1 "grade" = some g ∧ getStr ud1 "difficulty" = some d ∧
          gen uid1 g d = some q :=
      fun uid1 ud1 hm1 => hok uid1 ud1 (List.mem_cons_of_mem _ hm1)
    by_cases hmt : timeMatches ud t = true
    · obtain ⟨g, d, q, hg, hd, hq⟩ := hok uid ud (List.mem_cons_self _ _) hmt
      have hstep : check_and_send_questions gen ((uid, ud) :: rest) t =
          (uid, Msg.dailyQuestion q) :: check_and_send_questions gen rest t := by
        simp [check_and_send_questions, hmt, hg, hd, hq]
      rw [hstep]
      simp [List.filter_cons, hmt, ih hok1]
    · have hstep : check_and_send_questions gen ((uid, ud) :: rest) t =
          check_and_send_questions gen rest t := by
        simp [check_and_send_questions, hmt]
      rw [hstep]
      simp [List.filter_cons, hmt, ih hok1]

theorem check_and_send_questions_exact_recipients_witness :
    (check_and_send_questions (fun _ _ _ => some demoQuestion) demoStore2
        "09:00").map Prod.fst =
      (demoStore2.filter (fun p => timeMatches p.2 "09:00")).map Prod.fst :=
  check_and_send_questions_exact_recipients (fun _ _ _ => some demoQuestion)
    demoStore2 "09:00" (by
      intro uid ud hmem hmt
      simp only [demoStore2, List.mem_cons, List.not_mem_nil, or_false] at hmem
      rcases hmem with h | h <;>
        (injection h with h1 h2; subst h1; subst h2;
         exact ⟨_, _, demoQuestion, rfl, rfl, rfl⟩))

/-- Claim C6: registration runs through the fixed sequence name, age,
grade, difficulty, preferred time; the difficulty callback only fires for
Beginner, Intermediate or Advanced, and completion persists a record with
streak 0, total_score 0, last_submission None and an empty
submissions_history (plus the five entered fields). -/
theorem registration_sequence_initial_record
    (user_id n a g d t : String) (ctx0 : Rec) (store : Store) (q : QuestionData)
    (hd : DIFFICULTY_LEVELS.contains d = true) :
    (∃ ctx1 msgs,
      regRun user_id (some q) (ConvState.NAME, ctx0, store)
        [ConvInput.text n, ConvInput.text a, ConvInput.text g,
         ConvInput.callback d, ConvInput.text t] =
        some (ConvState.END, ctx1,
          update_user store user_id (registration_record n a g d t), msgs)) ∧
    (let stored := (alookup (update_user store user_id
        (registration_record n a g d t)) user_id).getD [];
      alookup stored "streak" = some (Val.num 0) ∧
      alookup stored "total_score" = some (Val.num 0) ∧
      alookup stored "last_submission" = some Val.null ∧
      alookup stored "submissions_history" = some (Val.list []) ∧
      alookup stored "name" = some (Val.str n) ∧
      alookup stored "age" = some (Val.str a) ∧
      alookup stored "grade" = some (Val.str g) ∧
      alookup stored "difficulty" = some (Val.str d) ∧
      alookup stored "preferred_time" = some (Val.str t)) ∧
    (∀ d1, DIFFICULTY_LEVELS.contains d1 = false →
      regStep user_id (some q) (ConvState.DIFFICULTY, ctx0, store)
        (ConvInput.callback d1) = none) := by
  refine ⟨⟨setKey (setKey (setKey (setKey (setKey ctx0 "name" (Val.str n))
      "age" (Val.str a)) "grade" (Val.str g)) "difficulty" (Val.str d))
      "hint" (Val.str q.hint),
      [Msg.askAge, Msg.askGrade, Msg.askDifficulty, Msg.askTime,
       Msg.firstQuestion n g d t q], ?_⟩, ?_, ?_⟩
  · have hdm : d ∈ DIFFICULTY_LEVELS := by simpa using hd
    simp [regRun, regStep, hdm, get_time, getStr, alookup_setKey]
  · simp [update_user, alookup_setKey, alookup_dictUpdate, lookupLast,
      registration_record]
  · intro d1 hd1
    have hdm1 : d1 ∉ DIFFICULTY_LEVELS := by simpa using hd1
    simp [regStep, hdm1]

theorem registration_sequence_initial_record_witness :
    regStep "u1" (some demoQuestion) (ConvState.DIFFICULTY, [], [])
      (ConvInput.callback "Expert") = none :=
  (registration_sequence_initial_record "u1" "Asha" "15" "10th" "Beginner"
    "09:00" [] [] demoQuestion rfl).2.2 "Expert" rfl

/-- Claim C7, counterexample: a question is delivered outside the
scheduler's ticks.  Completing registration makes get_time send the first
question directly from the conversation handler, yet the scheduled jobs
are only the minute check and the weekly challenge — so "no question
delivery happens outside these ticks" fails on the code. -/
theorem registration_sends_question_outside_ticks :
    ((regRun "u1" (some demoQuestion) (ConvState.NAME, [], [])
        [ConvInput.text "Asha", ConvInput.text "15", ConvInput.text "10th",
         ConvInput.callback "Beginner", ConvInput.text "09:00"]).map
      (fun r => r.2.2.2.any isQuestionMsg)) = some true ∧
    schedule_daily_tasks.map Prod.snd =
      [Task.checkAndSendQuestions, Task.sendWeeklyChallenge] := by
  exact ⟨rfl, rfl⟩

/-- Claim C7, amended: the daily-question check is scheduled every 1
minute and the weekly challenge every Sunday at 09:00, run by a
side-thread loop sleeping 30 seconds between run_pending calls; apart
from the first question that get_time sends directly when registration
completes (the TIME state), question delivery happens only through the
scheduled minute tick: submission handling never sends a question, every
send of the minute tick is a daily question, and a registration step that
emits a question message can only be the TIME step. -/
theorem scheduler_config_and_question_sources :
    schedule_daily_tasks =
      [(Sched.everyMinutes 1, Task.checkAndSendQuestions),
       (Sched.weeklyAt "sunday" "09:00", Task.sendWeeklyChallenge)] ∧
    scheduler_sleep_seconds = 30 ∧
    (∀ (parse : String → Option EvalData) (store : Store)
       (user_id : String) (hdoc : Bool) (mimeType evaluation now : String)
       (res : Store × List Msg),
      handle_submission parse store user_id hdoc mimeType evaluation now =
        some res → res.2.any isQuestionMsg = false) ∧
    (∀ gen (store : Store) (t : String) p,
      p ∈ check_and_send_questions gen store t → isQuestionMsg p.2 = true) ∧
    (∀ (user_id : String) (q : Option QuestionData) (st : ConvState)
       (ctx : Rec) (store : Store) (inp : ConvInput)
       (res : ConvState × Rec × Store × List Msg),
      regStep user_id q (st, ctx, store) inp = some res →
      res.2.2.2.any isQuestionMsg = true → st = ConvState.TIME) := by
  refine ⟨rfl, rfl, ?_, ?_, ?_⟩
  · intro parse store user_id hdoc mimeType evaluation now res h
    simp only [handle_submission] at h
    split at h
    · simp only [Option.some.injEq] at h
      subst h
      simp [isQuestionMsg]
    · split at h
      · simp only [Option.some.injEq] at h
        subst h
        simp [isQuestionMsg]
      · split at h
        · simp only [Option.some.injEq] at h
          subst h
          simp [isQuestionMsg]
        · obtain ⟨s1, _, h⟩ := Option.bind_eq_some.mp h
          obtain ⟨t1, _, h⟩ := Option.bind_eq_some.mp h
          obtain ⟨l1, _, h⟩ := Option.bind_eq_some.mp h
          simp only [Option.some.injEq] at h
          subst h
          by_cases hc : (s1 + 1) % 5 == 0 <;> simp [hc, isQuestionMsg]
  · intro gen store t p hp
    induction store with
    | nil => simp [check_and_send_questions] at hp
    | cons hd1 rest ih =>
      simp only [check_and_send_questions, List.foldr_cons] at hp
      split at hp
      · split at hp
        · split at hp
          · rcases List.mem_cons.mp hp with h | h
            · simp [h, isQuestionMsg]
            · exact ih h
          · exact ih hp
        · exact ih hp
      · exact ih hp
  · intro user_id q st ctx store inp res h hq
    cases st <;> cases inp <;> try rfl
    all_goals simp only [regStep] at h
    all_goals
      first
        | exact Option.noConfusion h
        | (simp only [Option.some.injEq] at h
           subst h
           simp [isQuestionMsg] at hq)
        | (split at h <;>
            first
              | (simp only [Option.some.injEq] at h
                 subst h
                 simp [isQuestionMsg] at hq)
              | exact Option.noConfusion h)

theorem scheduler_config_and_question_sources_witness :
    ([Msg.uploadPrompt] : List Msg).any isQuestionMsg = false :=
  scheduler_config_and_question_sources.2.2.1 (fun _ => none) [] "u1" false
    "x" "y" "z" ([], [Msg.uploadPrompt]) rfl

end Codesdailybot
